import Mathlib

/-!
# Verification of the Street Bot chat front-end

Shallow embedding of the client-side chat module (session persistence,
history bucketing, chat controller) of the Street Bot front-end, together
with theorems settling the specification claims.

Modelling conventions:
* Timestamps (`createdAt`, `updatedAt`, the reference clock) are embedded as
  their epoch-millisecond values (`Int`); the source stores ISO strings and
  compares them through `new Date(x).getTime()`, which is exactly the
  epoch-millisecond value.
* Dynamic (untyped JSON) values are embedded as the inductive `JValue`;
  JavaScript property access `v.k` becomes `jProp v k` (returning `none`
  for `undefined`).
* The browser storage slot is embedded as `Slot`: the medium can be
  unavailable (reads throw), the key absent, the stored string not valid
  JSON, or a stored JSON value.  `JSON.parse ∘ JSON.stringify` is the
  identity on JSON values, so a written value is read back as itself.
* The local calendar is modelled with a fixed UTC offset `tz` (milliseconds);
  under a fixed offset, `setDate(getDate() - k)` is subtraction of
  `k * 86400000` milliseconds.
* `crypto.randomUUID()` and `new Date()` inside the submit handler are
  passed as explicit parameters (`uuid`, `now`, `now2`); the network outcome
  of the single `fetch` is passed as a `NetOutcome` parameter.
-/

/-- Dynamic JSON values (the result of `JSON.parse`). -/
inductive JValue where
  | null : JValue
  | bool : Bool → JValue
  | num : Int → JValue
  | str : String → JValue
  | arr : List JValue → JValue
  | obj : List (String × JValue) → JValue

/-- Field lookup in a JSON object (`fields[key]`), first binding wins. -/
def jGetField : List (String × JValue) → String → Option JValue
  | [], _ => none
  | (k, v) :: rest, key => if k = key then some v else jGetField rest key

/-- JavaScript property access `v.k`: `none` models `undefined`. -/
def jProp (v : JValue) (key : String) : Option JValue :=
  match v with
  | .obj fields => jGetField fields key
  | _ => none

/-- JavaScript truthiness test on a JSON value (`!v` is `!jTruthy v`).
`NaN` does not arise because numbers are embedded as integers. -/
def jFalsy : JValue → Bool
  | .null => true
  | .bool b => !b
  | .num n => n == 0
  | .str s => s == ""
  | .arr _ => false
  | .obj _ => false

/-- `Array.isArray`. -/
def jIsArr : JValue → Bool
  | .arr _ => true
  | _ => false

/-- `String.prototype.includes`: substring containment. -/
def strIncludes (s sub : String) : Bool :=
  decide (List.IsInfix sub.toList s.toList)

/-- `String.prototype.trim` (whitespace at the character level). -/
def jsTrim (s : String) : String :=
  String.mk (((s.toList.dropWhile Char.isWhitespace).reverse.dropWhile
    Char.isWhitespace).reverse)

/-- `String.prototype.toLowerCase` (character-wise lowering). -/
def jsToLower (s : String) : String :=
  String.mk (s.toList.map Char.toLower)

/-- Message roles. -/
inductive Role where
  | user : Role
  | assistant : Role
  | system : Role
deriving DecidableEq, Repr

/-- Message display variants. -/
inductive Variant where
  | default : Variant
  | callout : Variant
deriving DecidableEq, Repr

/-- In-memory chat message (`ChatMessage`).  The annotation payloads
(`metadata`, `serviceGroups`, `nextActions`, `needsIdentified`) are dynamic
JSON values in the source and are carried as such. -/
structure ChatMessage where
  id : String
  role : Role
  content : String
  metadata : Option JValue := none
  variant : Option Variant := none
  serviceGroups : Option (List JValue) := none
  nextActions : Option JValue := none
  needsIdentified : Option JValue := none

/-- Persisted message (`StoredMessage`). -/
structure StoredMessage where
  id : String
  role : Role
  content : String
  metadata : Option JValue := none
  serviceGroups : Option (List JValue) := none
  nextActions : Option JValue := none
  needsIdentified : Option JValue := none
  createdAt : Int

/-- Persisted session (`StoredSession`). -/
structure StoredSession where
  sessionId : String
  title : String
  messages : List StoredMessage
  createdAt : Int
  updatedAt : Int

/-- History buckets (`SessionHistoryBuckets`); the `monthly` record is an
insertion-ordered association list, matching JavaScript object semantics for
non-index string keys. -/
structure SessionHistoryBuckets where
  today : List StoredSession
  yesterday : List StoredSession
  last7Days : List StoredSession
  monthly : List (String × List StoredSession)

/-! ## Loading-placeholder text selection (`getLoadingMessage`) -/

/-- Housing keyword group. -/
def matchesHousing (m : String) : Bool :=
  strIncludes m "housing" || strIncludes m "shelter" || strIncludes m "homeless" ||
  strIncludes m "apartment" || strIncludes m "place to stay"

/-- Food keyword group. -/
def matchesFood (m : String) : Bool :=
  strIncludes m "food" || strIncludes m "meal" || strIncludes m "hungry" ||
  strIncludes m "eat" || strIncludes m "food bank"

/-- Medical keyword group. -/
def matchesMedical (m : String) : Bool :=
  strIncludes m "medical" || strIncludes m "doctor" || strIncludes m "health" ||
  strIncludes m "clinic" || strIncludes m "hospital" || strIncludes m "sick"

/-- Employment keyword group. -/
def matchesEmployment (m : String) : Bool :=
  strIncludes m "job" || strIncludes m "work" || strIncludes m "employment" ||
  strIncludes m "hire" || strIncludes m "career"

/-- Legal keyword group. -/
def matchesLegal (m : String) : Bool :=
  strIncludes m "legal" || strIncludes m "lawyer" || strIncludes m "court" ||
  strIncludes m "rights"

/-- Mental-health keyword group. -/
def matchesMental (m : String) : Bool :=
  strIncludes m "mental" || strIncludes m "counseling" || strIncludes m "therapy" ||
  strIncludes m "depression" || strIncludes m "anxiety"

/-- Transportation keyword group. -/
def matchesTransport (m : String) : Bool :=
  strIncludes m "transport" || strIncludes m "bus" || strIncludes m "ride" ||
  strIncludes m "get there"

/-- Generic-help keyword group. -/
def matchesHelp (m : String) : Bool :=
  strIncludes m "help" || strIncludes m "support" || strIncludes m "need" ||
  strIncludes m "assist"

/-- Proximity keyword group. -/
def matchesNearMe (m : String) : Bool :=
  strIncludes m "near me" || strIncludes m "nearby" || strIncludes m "close" ||
  strIncludes m "around here"

/-- The four generic fallback loading messages. -/
def defaultMessages : List String :=
  ["Analyzing your request…",
   "Looking up available resources…",
   "Checking what help is available…",
   "Finding services that match your needs…"]

/-- `getLoadingMessage`: first matching keyword group wins, in source order;
otherwise a generic message chosen by `length % 4`. -/
def getLoadingMessage (userMessage : String) : String :=
  let messageLower := jsToLower userMessage
  if matchesHousing messageLower then "Searching for housing options near you…"
  else if matchesFood messageLower then "Finding food resources in your area…"
  else if matchesMedical messageLower then "Looking up healthcare services for you…"
  else if matchesEmployment messageLower then "Searching for employment resources…"
  else if matchesLegal messageLower then "Finding legal assistance options…"
  else if matchesMental messageLower then "Locating mental health support services…"
  else if matchesTransport messageLower then "Checking transportation options…"
  else if matchesHelp messageLower then "Finding the best support options for you…"
  else if matchesNearMe messageLower then "Searching for nearby services…"
  else defaultMessages.getD (userMessage.length % defaultMessages.length) ""

/-- Disjunction of all keyword groups, in the priority order of the source. -/
def matchesAnyKeyword (m : String) : Bool :=
  matchesHousing m || matchesFood m || matchesMedical m || matchesEmployment m ||
  matchesLegal m || matchesMental m || matchesTransport m || matchesHelp m ||
  matchesNearMe m

/-! ## Message-content extraction (`extractText`) -/

/-- Extraction of the text of one part of an array-shaped content value. -/
def extractPart (part : JValue) : String :=
  match part with
  | .obj _ | .arr _ =>
    match jProp part "text" with
    | some (.str t) => t
    | _ =>
      match jProp part "children" with
      | some (.arr children) =>
        String.join (children.map fun child =>
          match jProp child "text" with
          | some (.str t) => t
          | _ => "")
      | _ => ""
  | _ => ""

/-- `extractText`: tolerant extraction of message text from a dynamic
content value. -/
def extractText (content : JValue) : String :=
  if jFalsy content then ""
  else
    match content with
    | .str s => s
    | .arr parts => String.intercalate "\n" (parts.map extractPart)
    | _ => ""

/-! ## Session Store -/

/-- `getDefaultSessionTitle`. -/
def getDefaultSessionTitle (message : String) : String :=
  let trimmed := jsTrim message
  if trimmed = "" then "Untitled chat"
  else if trimmed.length ≤ 48 then trimmed
  else (trimmed.take 45).push '…'

/-- `upsertSession`: replace the first entry with a matching `sessionId`,
or append. -/
def upsertSession (sessions : List StoredSession) (session : StoredSession) :
    List StoredSession :=
  match sessions.findIdx? (fun item => item.sessionId = session.sessionId) with
  | none => sessions ++ [session]
  | some index => sessions.set index session

/-- Insertion step of the stable descending sort by `updatedAt`: the new
element goes after every element whose key is at least as large, so equal
keys keep their input order. -/
def insertByUpdated (x : StoredSession) : List StoredSession → List StoredSession
  | [] => [x]
  | y :: ys =>
    if x.updatedAt ≤ y.updatedAt then y :: insertByUpdated x ys
    else x :: y :: ys

/-- `sortSessionsByUpdated`: stable sort by `updatedAt` descending
(JavaScript `sort` with comparator `(a, b) => tb - ta` is a stable sort by
that key; a stable sort is extensionally unique, realised here as insertion
sort). -/
def sortSessionsByUpdated (sessions : List StoredSession) : List StoredSession :=
  sessions.foldl (fun acc x => insertByUpdated x acc) []

/-- JSON encoding of a `Role` (`JSON.stringify` of the role string). -/
def roleToString : Role → String
  | .user => "user"
  | .assistant => "assistant"
  | .system => "system"

/-- JSON encoding of a `StoredMessage` (`JSON.stringify`); fields holding
`undefined` are omitted, as `JSON.stringify` does. -/
def messageToJson (m : StoredMessage) : JValue :=
  .obj ([("id", .str m.id), ("role", .str (roleToString m.role)),
         ("content", .str m.content)] ++
    (match m.metadata with | none => [] | some v => [("metadata", v)]) ++
    (match m.serviceGroups with
     | none => [] | some gs => [("serviceGroups", .arr gs)]) ++
    (match m.nextActions with | none => [] | some v => [("nextActions", v)]) ++
    (match m.needsIdentified with
     | none => [] | some v => [("needsIdentified", v)]) ++
    [("createdAt", .num m.createdAt)])

/-- JSON encoding of a `StoredSession` (`JSON.stringify`). -/
def sessionToJson (s : StoredSession) : JValue :=
  .obj [("sessionId", .str s.sessionId), ("title", .str s.title),
        ("messages", .arr (s.messages.map messageToJson)),
        ("createdAt", .num s.createdAt), ("updatedAt", .num s.updatedAt)]

/-- The persisted browser-storage slot under the fixed key
`"streetbot:sessions"`: the medium may be unavailable (access throws), the
key may be absent, the stored string may fail `JSON.parse`, or it holds a
parsed JSON value. -/
inductive Slot where
  | unavailable : Slot
  | absent : Slot
  | malformed : Slot
  | value : JValue → Slot

/-- `readStoredSessions`: returns the parsed array unvalidated (the source
casts `parsed as StoredSession[]` after only an `Array.isArray` check), and
the empty sequence on an absent key, unparseable content, a non-array parse
result, or a throwing medium (failures are logged and swallowed). -/
def readStoredSessions : Slot → List JValue
  | .unavailable => []
  | .absent => []
  | .malformed => []
  | .value v =>
    match v with
    | .arr parsed => parsed
    | _ => []

/-- `writeStoredSessions`: removes the slot for an empty sequence, otherwise
stores the serialized sequence. -/
def writeStoredSessions (next : List StoredSession) : Slot :=
  if next.isEmpty then .absent
  else .value (.arr (next.map sessionToJson))

/-! ## Session Bucketer -/

/-- Milliseconds per day. -/
def dayMs : Int := 86400000

/-- Civil calendar date `(year, month in 1..12, day in 1..31)` of a day
number counted from 1970-01-01 (proleptic Gregorian). -/
def civilFromDays (z : Int) : Int × Int × Int :=
  let z' := z + 719468
  let era := z'.fdiv 146097
  let doe := z' - era * 146097
  let yoe := (doe - doe / 1460 + doe / 36524 - doe / 146096) / 365
  let y := yoe + era * 400
  let doy := doe - (365 * yoe + yoe / 4 - yoe / 100)
  let mp := (5 * doy + 2) / 153
  let d := doy - (153 * mp + 2) / 5 + 1
  let m := mp + (if mp < 10 then 3 else -9)
  (y + (if m ≤ 2 then 1 else 0), m, d)

/-- Day number of a timestamp in a local calendar with fixed offset `tz`
(milliseconds east of UTC). -/
def localDayNumber (tz t : Int) : Int :=
  (t + tz).fdiv dayMs

/-- `Date.prototype.getFullYear` in the fixed-offset local calendar. -/
def jsGetFullYear (tz t : Int) : Int :=
  (civilFromDays (localDayNumber tz t)).1

/-- `Date.prototype.getMonth` (0-based) in the fixed-offset local calendar. -/
def jsGetMonth (tz t : Int) : Int :=
  (civilFromDays (localDayNumber tz t)).2.1 - 1

/-- `Date.prototype.getDate` in the fixed-offset local calendar. -/
def jsGetDate (tz t : Int) : Int :=
  (civilFromDays (localDayNumber tz t)).2.2

/-- `String(n).padStart(2, "0")`. -/
def padStart2 (s : String) : String :=
  if s.length ≥ 2 then s
  else if s.length = 1 then "0" ++ s
  else "00"

/-- `formatDateKey`: the `"YYYY-MM"` month key of a timestamp. -/
def formatDateKey (tz t : Int) : String :=
  toString (jsGetFullYear tz t) ++ "-" ++ padStart2 (toString (jsGetMonth tz t + 1))

/-- `isSameDay`: same local calendar year, month and day. -/
def isSameDay (tz a b : Int) : Bool :=
  jsGetFullYear tz a == jsGetFullYear tz b &&
  jsGetMonth tz a == jsGetMonth tz b &&
  jsGetDate tz a == jsGetDate tz b

/-- Push into the `monthly` record: append to the group of an existing key,
or add the key at the end (JavaScript object insertion order). -/
def insertMonthly : List (String × List StoredSession) → String → StoredSession →
    List (String × List StoredSession)
  | [], key, s => [(key, [s])]
  | (k, g) :: rest, key, s =>
    if k = key then (k, g ++ [s]) :: rest
    else (k, g) :: insertMonthly rest key s

/-- One step of `bucketSessions`: assign a session to the first matching
bucket (today, yesterday, last 7 days, else its month).  Under the
fixed-offset calendar, the source's `yesterday` (`setDate(getDate() - 1)`)
is `now - dayMs` and `sevenDaysAgo` is `now - 7 * dayMs`. -/
def addSessionToBuckets (tz now : Int) (buckets : SessionHistoryBuckets)
    (session : StoredSession) : SessionHistoryBuckets :=
  if isSameDay tz session.updatedAt now then
    { buckets with today := buckets.today ++ [session] }
  else if isSameDay tz session.updatedAt (now - dayMs) then
    { buckets with yesterday := buckets.yesterday ++ [session] }
  else if now - 7 * dayMs ≤ session.updatedAt then
    { buckets with last7Days := buckets.last7Days ++ [session] }
  else
    { buckets with
      monthly := insertMonthly buckets.monthly
        (formatDateKey tz session.updatedAt) session }

/-- The empty bucket collection. -/
def emptyBuckets : SessionHistoryBuckets :=
  { today := [], yesterday := [], last7Days := [], monthly := [] }

/-- `bucketSessions`: partition the sessions into display buckets relative
to `now`. -/
def bucketSessions (tz now : Int) (sessions : List StoredSession) :
    SessionHistoryBuckets :=
  sessions.foldl (addSessionToBuckets tz now) emptyBuckets

/-- All sessions of a bucket collection, in bucket order. -/
def flattenBuckets (b : SessionHistoryBuckets) : List StoredSession :=
  b.today ++ b.yesterday ++ b.last7Days ++ (b.monthly.map Prod.snd).flatten

/-! ## Chat Controller (`Home` / `handleSubmit`) -/

/-- The configured agent (`useHttpAgent()`); `none` models the collaborator
being unavailable (no `NEXT_PUBLIC_AGENT_URL`). -/
structure Agent where
  url : String

/-- One message of the remote response payload (`AgentUGIResponseMessage`):
`role` is an arbitrary string, `content` may be absent
(the source guards with `"content" in message`), `metadata` is dynamic. -/
structure AgentResponseMessage where
  role : String
  content : Option JValue := none
  metadata : Option JValue := none

/-- Remote response payload (`RunAgentResponsePayload`). -/
structure RunAgentResponsePayload where
  newMessages : List AgentResponseMessage
  sessionId : Option String := none

/-- Outcome of the single `fetch` of a submission: `failure` covers a
network error, a non-2xx status and a malformed body (each throws into the
`catch`); `success` carries the decoded payload. -/
inductive NetOutcome where
  | failure : NetOutcome
  | success : RunAgentResponsePayload → NetOutcome

/-- Controller state: live messages, the input control, the current
conversation's session id, the in-memory copy of the Session Store and the
persisted slot. -/
structure ChatState where
  messages : List ChatMessage
  input : String
  sessionId : Option String
  storedSessions : List StoredSession
  slot : Slot

/-- The optimistic user `ChatMessage` of a submission. -/
def mkUserMessage (uuid content : String) : ChatMessage :=
  { id := uuid, role := .user, content := content }

/-- The optimistic `StoredMessage` copy of the user message. -/
def mkStoredUserMessage (uuid content : String) (now : Int) : StoredMessage :=
  { id := uuid, role := .user, content := content, createdAt := now }

/-- The loading placeholder, keyed by the derived id `uuid ++ "-loading"`. -/
def mkLoadingMessage (uuid text : String) : ChatMessage :=
  { id := uuid ++ "-loading", role := .assistant, content := text,
    variant := some .callout }

/-- The system message shown when no agent is configured. -/
def mkMissingAgentMessage (uuid : String) : ChatMessage :=
  { id := uuid ++ "-missing-agent", role := .system,
    content := "Street Bot isn\x27t connected to an agent yet. Set NEXT_PUBLIC_AGENT_URL and reload to chat.",
    variant := some .callout }

/-- The system message shown when the remote call fails. -/
def mkErrorMessage (uuid : String) : ChatMessage :=
  { id := uuid ++ "-error", role := .system,
    content := "We couldn\x27t reach the Street Bot service. Check your agent URL or try again.",
    variant := some .callout }

/-- The optimistic persistence step of `handleSubmit` (lines 1265–1288): if
a session for the current conversation exists in the store and does not yet
hold the user message, append it, refresh `updatedAt`, re-sort and write
through; otherwise leave store and slot untouched. -/
def optimisticPersist (sessionId : Option String)
    (prev : List StoredSession) (slot : Slot) (stored : StoredMessage) :
    List StoredSession × Slot :=
  match sessionId with
  | none => (prev, slot)
  | some sid =>
    match prev.find? (fun session => session.sessionId = sid) with
    | none => (prev, slot)
    | some existing =>
      if existing.messages.any (fun message => message.id = stored.id) then
        (prev, slot)
      else
        let updatedSession : StoredSession :=
          { existing with
            messages := existing.messages ++ [stored],
            updatedAt := stored.createdAt }
        let nextSessions := sortSessionsByUpdated
          (prev.map (fun session =>
            if session.sessionId = sid then updatedSession else session))
        (nextSessions, writeStoredSessions nextSessions)

/-- `metadata?.k ?? fallback` for a dynamic metadata value (optional
chaining yields `undefined` for a missing object, nullish coalescing also
replaces `null`). -/
def metaFieldOr (metadata : Option JValue) (key : String) (fallback : JValue) :
    JValue :=
  match metadata with
  | none => fallback
  | some m =>
    match jProp m key with
    | none => fallback
    | some .null => fallback
    | some v => v

/-- `metadata?.tools?.service_lookup` with the `Array.isArray` guard:
the service groups of a response message. -/
def serviceGroupsOf (metadata : Option JValue) : List JValue :=
  match metadata with
  | none => []
  | some m =>
    match jProp m "tools" with
    | some tools =>
      match jProp tools "service_lookup" with
      | some (.arr gs) => gs
      | _ => []
    | none => []

/-- Conversion of one response message to a live `ChatMessage`
(lines 1346–1368): the id is derived from the submission's uuid and the
message index, unknown roles collapse to `assistant`, the content is
extracted tolerantly. -/
def mkAssistantMessage (uuid : String) (index : Nat)
    (message : AgentResponseMessage) : ChatMessage :=
  let metadata := message.metadata
  let serviceGroups := serviceGroupsOf metadata
  let role : Role :=
    if message.role = "user" then .user
    else if message.role = "assistant" then .assistant
    else .assistant
  { id := uuid ++ "-assistant-" ++ toString index,
    role := role,
    content := match message.content with
      | some c => extractText c
      | none => "",
    metadata := metadata,
    variant := if serviceGroups.length > 0 then some .callout else none,
    serviceGroups := some serviceGroups,
    nextActions := some (metaFieldOr metadata "nextActions" (.arr [])),
    needsIdentified := some (metaFieldOr metadata "needsIdentified" (.arr [])) }

/-- Persisted copy of an assistant `ChatMessage` (lines 1399–1408). -/
def toStoredMessage (now : Int) (m : ChatMessage) : StoredMessage :=
  { id := m.id, role := m.role, content := m.content, metadata := m.metadata,
    serviceGroups := m.serviceGroups, nextActions := m.nextActions,
    needsIdentified := m.needsIdentified, createdAt := now }

/-- The Session Store merge of a successful turn (lines 1378–1420): no-op
without a response `sessionId`; otherwise build the next session from the
stored messages of the existing entry (if any), the user message and the
assistant messages, then upsert, re-sort and write through.  `oldMessages`
is the live message list from before this submission (the closure variable
`messages` at line 1395). -/
def mergeSuccess (maybeSessionId : Option String) (uuid userContent : String)
    (oldMessages : List ChatMessage) (assistantMessages : List ChatMessage)
    (now2 : Int) (prev : List StoredSession) (slot : Slot) :
    List StoredSession × Slot :=
  match maybeSessionId with
  | none => (prev, slot)
  | some msid =>
    let existing := prev.find? (fun session => session.sessionId = msid)
    let storedUserMessage := mkStoredUserMessage uuid userContent now2
    let nextSession : StoredSession :=
      { sessionId := msid,
        title := (existing.map (fun e => e.title)).getD
          (getDefaultSessionTitle
            (((oldMessages.find? (fun msg => msg.role = .user)).map
              (fun msg => msg.content)).getD userContent)),
        messages := (existing.map (fun e => e.messages)).getD [] ++
          [storedUserMessage] ++ assistantMessages.map (toStoredMessage now2),
        createdAt := (existing.map (fun e => e.createdAt)).getD now2,
        updatedAt := now2 }
    let nextSessions := sortSessionsByUpdated (upsertSession prev nextSession)
    (nextSessions, writeStoredSessions nextSessions)

/-- `handleSubmit`: the full submission handler.  Returns the next
controller state and whether a network call was issued.  `uuid` is the
fresh `crypto.randomUUID()`, `now` the submission instant, `now2` the
instant the successful response is merged, `outcome` the result of the
`fetch` (unused unless an agent is configured). -/
def handleSubmit (agent : Option Agent) (uuid : String) (now now2 : Int)
    (outcome : NetOutcome) (st : ChatState) : ChatState × Bool :=
  if jsTrim st.input = "" then (st, false)
  else
    let userMessage := mkUserMessage uuid (jsTrim st.input)
    let storedUserMessage := mkStoredUserMessage uuid userMessage.content now
    let nextMessages := st.messages ++ [userMessage]
    let loadingMessageId := uuid ++ "-loading"
    let dynamicLoadingMessage := getLoadingMessage userMessage.content
    let messages1 := nextMessages ++ [mkLoadingMessage uuid dynamicLoadingMessage]
    let persisted :=
      optimisticPersist st.sessionId st.storedSessions st.slot storedUserMessage
    match agent with
    | none =>
      ({ st with
          messages := messages1 ++ [mkMissingAgentMessage uuid],
          input := "",
          storedSessions := persisted.1,
          slot := persisted.2 }, false)
    | some _ =>
      match outcome with
      | .failure =>
        ({ st with
            messages := messages1.filter (fun m => m.id ≠ loadingMessageId) ++
              [mkErrorMessage uuid],
            input := "",
            storedSessions := persisted.1,
            slot := persisted.2 }, true)
      | .success payload =>
        let maybeSessionId := payload.sessionId
        let sessionId2 := match maybeSessionId with
          | some s => some s
          | none => st.sessionId
        let assistantMessages := payload.newMessages.enum.map
          (fun p => mkAssistantMessage uuid p.1 p.2)
        let withoutLoading := messages1.filter (fun m => m.id ≠ loadingMessageId)
        let messages2 :=
          if assistantMessages.isEmpty then withoutLoading
          else withoutLoading ++ assistantMessages
        let merged := mergeSuccess maybeSessionId uuid
          userMessage.content st.messages assistantMessages now2
          persisted.1 persisted.2
        ({ messages := messages2,
           input := "",
           sessionId := sessionId2,
           storedSessions := merged.1,
           slot := merged.2 }, true)

/-! ## Claim C10: blank submission is a no-op -/

/-- C10: submitting empty or whitespace-only input is a complete no-op: when
the trimmed input is empty the submit handler returns before any state
mutation — the message list, the session id, the Session Store and the
persisted slot are unchanged and no network call is issued. -/
theorem submit_blank_is_noop (agent : Option Agent) (uuid : String)
    (now now2 : Int) (outcome : NetOutcome) (st : ChatState)
    (h : jsTrim st.input = "") :
    handleSubmit agent uuid now now2 outcome st = (st, false) := by
  unfold handleSubmit
  rw [if_pos h]

/-- Concrete controller state with whitespace-only input. -/
def blankInputState : ChatState :=
  { messages := [], input := "   ", sessionId := none,
    storedSessions := [], slot := .absent }

/-- Witness for C10 at a concrete whitespace-only input. -/
theorem submit_blank_is_noop_witness :
    handleSubmit none "u0" 0 0 NetOutcome.failure blankInputState =
      (blankInputState, false) :=
  submit_blank_is_noop none "u0" 0 0 NetOutcome.failure blankInputState
    (by decide)

/-! ## Claim C9: loading-placeholder text selection -/

/-- C9: the loading placeholder is a pure function of the submitted text,
matched case-insensitively against the keyword groups in a fixed priority
order; when no group matches, the text falls back to one of the four
generic messages chosen by `length(text) mod 4`; and submitting
"I need food" yields a placeholder containing "food". -/
theorem getLoadingMessage_spec :
    (∀ text : String, matchesAnyKeyword (jsToLower text) = false →
      getLoadingMessage text =
        defaultMessages.getD (text.length % defaultMessages.length) "") ∧
    strIncludes (getLoadingMessage "I need food") "food" = true := by
  constructor
  · intro text h
    unfold matchesAnyKeyword at h
    rw [Bool.or_eq_false_iff] at h; obtain ⟨h, h9⟩ := h
    rw [Bool.or_eq_false_iff] at h; obtain ⟨h, h8⟩ := h
    rw [Bool.or_eq_false_iff] at h; obtain ⟨h, h7⟩ := h
    rw [Bool.or_eq_false_iff] at h; obtain ⟨h, h6⟩ := h
    rw [Bool.or_eq_false_iff] at h; obtain ⟨h, h5⟩ := h
    rw [Bool.or_eq_false_iff] at h; obtain ⟨h, h4⟩ := h
    rw [Bool.or_eq_false_iff] at h; obtain ⟨h, h3⟩ := h
    rw [Bool.or_eq_false_iff] at h; obtain ⟨h1, h2⟩ := h
    simp [getLoadingMessage, h1, h2, h3, h4, h5, h6, h7, h8, h9]
  · rfl

/-- Witness for C9: "zzz" (length 3) matches no keyword group, so the
fourth generic message is chosen. -/
theorem getLoadingMessage_spec_witness :
    getLoadingMessage "zzz" =
      defaultMessages.getD ("zzz".length % defaultMessages.length) "" :=
  getLoadingMessage_spec.1 "zzz" (by decide)

/-! ## Claim C8: message-content extraction -/

/-- C8 counterexample: `[1, 2]` is not a plain string, not a sequence of
text parts and not a nested-children shape, yet extraction yields the
single newline separator, not the empty string. -/
theorem extractText_counterexample :
    extractText (.arr [.num 1, .num 2]) ≠ "" := by decide

/-- C8 (amended): extraction returns a plain string as-is, concatenates the
texts of `{type: "text", text}` parts with newline separators, concatenates
`children` leaf texts, and yields the empty string for any non-array,
non-string content; a non-conforming array, however, contributes an empty
string per element joined by newline separators (so it need not be the
empty string overall). -/
theorem extractText_shapes :
    (∀ s : String, extractText (.str s) = s) ∧
    (∀ ts : List String,
      extractText (.arr (ts.map fun t =>
        .obj [("type", .str "text"), ("text", .str t)])) =
        String.intercalate "\n" ts) ∧
    (∀ ts : List String,
      extractText (.arr [.obj [("children",
        .arr (ts.map fun t => .obj [("text", .str t)]))]]) =
        String.join ts) ∧
    extractText .null = "" ∧
    (∀ b, extractText (.bool b) = "") ∧
    (∀ n : Int, extractText (.num n) = "") ∧
    (∀ kvs, extractText (.obj kvs) = "") ∧
    (∀ parts, extractText (.arr parts) =
      String.intercalate "\n" (parts.map extractPart)) := by
  refine ⟨?_, ?_, ?_, rfl, ?_, ?_, fun kvs => rfl, fun parts => rfl⟩
  · intro s
    simp only [extractText, jFalsy, beq_iff_eq]
    split
    · rename_i hs
      exact hs.symm
    · rfl
  · intro ts
    have key : ∀ l : List String,
        (l.map fun t => JValue.obj
          [("type", JValue.str "text"), ("text", JValue.str t)]).map
          extractPart = l := by
      intro l
      induction l with
      | nil => rfl
      | cons a l ih =>
        simp only [List.map_cons, ih]
        rfl
    calc extractText (.arr (ts.map fun t => JValue.obj
          [("type", JValue.str "text"), ("text", JValue.str t)]))
        = String.intercalate "\n" ((ts.map fun t => JValue.obj
            [("type", JValue.str "text"), ("text", JValue.str t)]).map
            extractPart) := rfl
      _ = String.intercalate "\n" ts := by rw [key]
  · intro ts
    have key2 : ∀ l : List String,
        (l.map fun t => JValue.obj [("text", JValue.str t)]).map
          (fun child => match jProp child "text" with
            | some (.str t) => t
            | _ => "") = l := by
      intro l
      induction l with
      | nil => rfl
      | cons a l ih =>
        simp only [List.map_cons, ih]
        rfl
    calc extractText (.arr [JValue.obj [("children", JValue.arr
          (ts.map fun t => JValue.obj [("text", JValue.str t)]))]])
        = String.intercalate "\n" [String.join ((ts.map fun t =>
            JValue.obj [("text", JValue.str t)]).map
            (fun child => match jProp child "text" with
              | some (.str t) => t
              | _ => ""))] := rfl
      _ = String.intercalate "\n" [String.join ts] := by rw [key2]
      _ = String.join ts := rfl
  · intro b; cases b <;> rfl
  · intro n
    simp only [extractText, jFalsy]
    split <;> rfl

/-! ## Claim C7: load never raises and degrades to empty -/

/-- C7 counterexample: a slot holding the valid JSON array `[1]` — which is
not parseable as a sequence of Sessions — is returned as-is by `load()`,
not replaced by the empty sequence. -/
theorem readStoredSessions_counterexample :
    readStoredSessions (Slot.value (.arr [.num 1])) ≠ [] := by
  simp [readStoredSessions]

/-- C7 (amended): `load()` is total (never raises) and returns the empty
sequence when the slot is absent, when its content is not valid JSON, when
the parsed value is not an array, and when the storage medium is
unavailable; a parsed array, however, is returned unvalidated even if its
elements are not Sessions. -/
theorem readStoredSessions_degrades :
    readStoredSessions .unavailable = [] ∧
    readStoredSessions .absent = [] ∧
    readStoredSessions .malformed = [] ∧
    (∀ v : JValue, jIsArr v = false → readStoredSessions (.value v) = []) ∧
    (∀ parsed : List JValue, readStoredSessions (.value (.arr parsed)) = parsed) := by
  refine ⟨rfl, rfl, rfl, ?_, fun parsed => rfl⟩
  intro v h
  cases v <;> first | rfl | simp [jIsArr] at h

/-- Witness for C7 at a concrete non-array slot value. -/
theorem readStoredSessions_degrades_witness :
    readStoredSessions (Slot.value (.num 3)) = [] :=
  readStoredSessions_degrades.2.2.2.1 (.num 3) rfl

/-! ## Claim C6: save/load round trip -/

/-- Partial inverse of `roleToString`. -/
def roleOfString (s : String) : Option Role :=
  if s = "user" then some .user
  else if s = "assistant" then some .assistant
  else if s = "system" then some .system
  else none

/-- Expect a JSON string. -/
def asStr : Option JValue → Option String
  | some (.str s) => some s
  | _ => none

/-- Expect a JSON number. -/
def asNum : Option JValue → Option Int
  | some (.num n) => some n
  | _ => none

/-- Decoder of a `StoredMessage` from its JSON image (used to show the
encoding is lossless; the source itself performs an unvalidated cast). -/
def messageFromJson (v : JValue) : Option StoredMessage :=
  match v with
  | .obj fields => do
    let id ← asStr (jGetField fields "id")
    let role ← match jGetField fields "role" with
      | some (.str r) => roleOfString r
      | _ => none
    let content ← asStr (jGetField fields "content")
    let serviceGroups ← match jGetField fields "serviceGroups" with
      | none => some none
      | some (.arr gs) => some (some gs)
      | some _ => none
    let createdAt ← asNum (jGetField fields "createdAt")
    some { id := id, role := role, content := content,
           metadata := jGetField fields "metadata",
           serviceGroups := serviceGroups,
           nextActions := jGetField fields "nextActions",
           needsIdentified := jGetField fields "needsIdentified",
           createdAt := createdAt }
  | _ => none

/-- Decoder of a `StoredSession` from its JSON image. -/
def sessionFromJson (v : JValue) : Option StoredSession :=
  match v with
  | .obj fields => do
    let sessionId ← asStr (jGetField fields "sessionId")
    let title ← asStr (jGetField fields "title")
    let messages ← match jGetField fields "messages" with
      | some (.arr ms) => ms.mapM messageFromJson
      | _ => none
    let createdAt ← asNum (jGetField fields "createdAt")
    let updatedAt ← asNum (jGetField fields "updatedAt")
    some { sessionId := sessionId, title := title, messages := messages,
           createdAt := createdAt, updatedAt := updatedAt }
  | _ => none

/-- The message encoding is lossless. -/
theorem messageFromJson_toJson (m : StoredMessage) :
    messageFromJson (messageToJson m) = some m := by
  rcases m with ⟨id, role, content, metadata, serviceGroups, nextActions,
    needsIdentified, createdAt⟩
  cases metadata <;> cases serviceGroups <;> cases nextActions <;>
    cases needsIdentified <;> cases role <;> rfl

/-- The session encoding is lossless. -/
theorem sessionFromJson_toJson (s : StoredSession) :
    sessionFromJson (sessionToJson s) = some s := by
  rcases s with ⟨sessionId, title, messages, createdAt, updatedAt⟩
  have hm : (messages.map messageToJson).mapM messageFromJson = some messages := by
    induction messages with
    | nil => rfl
    | cons a l ih =>
      simp only [List.map_cons, List.mapM_cons, messageFromJson_toJson, ih,
        Option.pure_def, Option.bind_eq_bind, Option.some_bind]
  simp only [sessionFromJson, sessionToJson, jGetField, asStr, asNum]
  simp only [List.mapM] at hm ⊢
  simp [hm]

/-- C6: `save` followed by `load` round-trips the session sequence:
`save([])` removes the slot and `load()` then yields `[]`; for non-empty
`S`, `load()` after `save(S)` yields exactly the stored images of `S`, and
the encoding is injective, so the result determines `S`. -/
theorem save_load_roundtrip :
    writeStoredSessions [] = Slot.absent ∧
    readStoredSessions (writeStoredSessions []) = [] ∧
    (∀ S : List StoredSession, S ≠ [] →
      readStoredSessions (writeStoredSessions S) = S.map sessionToJson) ∧
    (∀ a b : StoredSession, sessionToJson a = sessionToJson b → a = b) := by
  refine ⟨rfl, rfl, ?_, ?_⟩
  · intro S hS
    simp [writeStoredSessions, readStoredSessions, hS]
  · intro a b h
    have ha := sessionFromJson_toJson a
    rw [h, sessionFromJson_toJson b] at ha
    exact (Option.some.injEq _ _ ▸ ha).symm

/-- Concrete session used by the C6 witness. -/
def demoSessionC6 : StoredSession :=
  { sessionId := "abc", title := "t",
    messages := [{ id := "m1", role := .user, content := "hello",
                   createdAt := 10 }],
    createdAt := 10, updatedAt := 11 }

/-- Witness for C6 at a concrete non-empty sequence. -/
theorem save_load_roundtrip_witness :
    readStoredSessions (writeStoredSessions [demoSessionC6]) =
      [sessionToJson demoSessionC6] ∧ demoSessionC6 = demoSessionC6 :=
  ⟨save_load_roundtrip.2.2.1 [demoSessionC6] (by simp),
   save_load_roundtrip.2.2.2 demoSessionC6 demoSessionC6 rfl⟩

/-! ## Claim C3: upsert followed by sortByRecency -/

/-- Recursive characterization of `upsertSession`: replace the head when
its id matches, otherwise recurse. -/
theorem upsertSession_cons (a : StoredSession) (l : List StoredSession)
    (s : StoredSession) :
    upsertSession (a :: l) s =
      if a.sessionId = s.sessionId then s :: l else a :: upsertSession l s := by
  unfold upsertSession
  rw [List.findIdx?_cons]
  by_cases hpa : a.sessionId = s.sessionId
  · simp [hpa]
  · rw [List.findIdx?_succ]
    simp only [hpa, decide_False, if_false, if_neg hpa]
    cases h : List.findIdx? (fun item => item.sessionId = s.sessionId) l with
    | none => simp
    | some j => simp [List.set]

/-- The `sessionId` column after `upsertSession`: unchanged when the id is
already present (the matching entry is replaced in place), extended by the
new id otherwise. -/
theorem upsertSession_map_sessionId (sessions : List StoredSession)
    (session : StoredSession) :
    (upsertSession sessions session).map StoredSession.sessionId =
      if session.sessionId ∈ sessions.map StoredSession.sessionId then
        sessions.map StoredSession.sessionId
      else sessions.map StoredSession.sessionId ++ [session.sessionId] := by
  induction sessions with
  | nil => simp [upsertSession]
  | cons a l ih =>
    rw [upsertSession_cons]
    by_cases hpa : a.sessionId = session.sessionId
    · simp [hpa]
    · rw [if_neg hpa]
      simp only [List.map_cons, List.mem_cons, ih]
      by_cases hmem : session.sessionId ∈ l.map StoredSession.sessionId
      · simp [hmem]
      · simp [hmem, Ne.symm hpa]

/-- Insertion keeps the multiset of sessions. -/
theorem insertByUpdated_perm (x : StoredSession) (l : List StoredSession) :
    (insertByUpdated x l).Perm (x :: l) := by
  induction l with
  | nil => exact List.Perm.refl _
  | cons y ys ih =>
    unfold insertByUpdated
    split
    · exact (ih.cons y).trans (List.Perm.swap x y ys)
    · exact List.Perm.refl _

/-- Insertion preserves sortedness by `updatedAt` descending. -/
theorem insertByUpdated_sorted {x : StoredSession} {l : List StoredSession}
    (h : l.Pairwise (fun a b => b.updatedAt ≤ a.updatedAt)) :
    (insertByUpdated x l).Pairwise (fun a b => b.updatedAt ≤ a.updatedAt) := by
  induction l with
  | nil => simp [insertByUpdated]
  | cons y ys ih =>
    rw [List.pairwise_cons] at h
    obtain ⟨hy, hys⟩ := h
    unfold insertByUpdated
    split
    · rename_i hle
      rw [List.pairwise_cons]
      refine ⟨?_, ih hys⟩
      intro z hz
      rcases List.mem_cons.mp ((insertByUpdated_perm x ys).mem_iff.mp hz) with
        rfl | hzys
      · exact hle
      · exact hy z hzys
    · rename_i hgt
      push_neg at hgt
      rw [List.pairwise_cons]
      refine ⟨?_, List.pairwise_cons.mpr ⟨hy, hys⟩⟩
      intro z hz
      rcases List.mem_cons.mp hz with rfl | hzys
      · exact le_of_lt hgt
      · exact le_trans (hy z hzys) (le_of_lt hgt)

/-- Insertion into a sorted list is stable: among elements with any given
`updatedAt`, the inserted element goes last and the rest keep their order. -/
theorem insertByUpdated_filter {x : StoredSession} {l : List StoredSession}
    (k : Int) (h : l.Pairwise (fun a b => b.updatedAt ≤ a.updatedAt)) :
    (insertByUpdated x l).filter (fun s => s.updatedAt == k) =
      l.filter (fun s => s.updatedAt == k) ++
        (if x.updatedAt == k then [x] else []) := by
  induction l with
  | nil =>
    rw [List.filter_nil, List.nil_append]
    show List.filter (fun s => s.updatedAt == k) [x] = _
    rw [List.filter_cons, List.filter_nil]
  | cons y ys ih =>
    rw [List.pairwise_cons] at h
    obtain ⟨hy, hys⟩ := h
    unfold insertByUpdated
    split
    · rename_i hle
      rw [List.filter_cons, List.filter_cons]
      split <;> simp [ih hys]
    · rename_i hgt
      push_neg at hgt
      rw [List.filter_cons]
      split
      · rename_i hxk
        have hnil : (y :: ys).filter (fun s => s.updatedAt == k) = [] := by
          rw [List.filter_eq_nil_iff]
          intro z hz
          rcases List.mem_cons.mp hz with rfl | hzys
          · simp only [beq_iff_eq]
            simp only [beq_iff_eq] at hxk
            omega
          · have := hy z hzys
            simp only [beq_iff_eq]
            simp only [beq_iff_eq] at hxk
            omega
        rw [hnil]
        simp [hxk]
      · rename_i hxk
        simp [hxk]

/-- Multiset preservation of the fold underlying `sortSessionsByUpdated`. -/
theorem foldl_insertByUpdated_perm (l : List StoredSession) :
    ∀ acc : List StoredSession,
      (l.foldl (fun a x => insertByUpdated x a) acc).Perm (acc ++ l) := by
  induction l with
  | nil => intro acc; simp
  | cons x xs ih =>
    intro acc
    refine (ih (insertByUpdated x acc)).trans ?_
    refine ((insertByUpdated_perm x acc).append_right xs).trans ?_
    exact List.perm_middle.symm

/-- Sortedness of the fold underlying `sortSessionsByUpdated`. -/
theorem foldl_insertByUpdated_sorted (l : List StoredSession) :
    ∀ acc : List StoredSession,
      acc.Pairwise (fun a b => b.updatedAt ≤ a.updatedAt) →
      (l.foldl (fun a x => insertByUpdated x a) acc).Pairwise
        (fun a b => b.updatedAt ≤ a.updatedAt) := by
  induction l with
  | nil => intro acc h; exact h
  | cons x xs ih =>
    intro acc h
    exact ih _ (insertByUpdated_sorted h)

/-- Stability of the fold underlying `sortSessionsByUpdated`. -/
theorem foldl_insertByUpdated_filter (k : Int) (l : List StoredSession) :
    ∀ acc : List StoredSession,
      acc.Pairwise (fun a b => b.updatedAt ≤ a.updatedAt) →
      (l.foldl (fun a x => insertByUpdated x a) acc).filter
          (fun s => s.updatedAt == k) =
        acc.filter (fun s => s.updatedAt == k) ++
          l.filter (fun s => s.updatedAt == k) := by
  induction l with
  | nil => intro acc _; simp
  | cons x xs ih =>
    intro acc h
    rw [List.foldl_cons, ih _ (insertByUpdated_sorted h),
      insertByUpdated_filter k h, List.filter_cons]
    split <;> simp

/-- Session with a duplicated id, first copy. -/
def dupSessionA1 : StoredSession :=
  { sessionId := "A", title := "first", messages := [], createdAt := 0,
    updatedAt := 0 }

/-- Session with a duplicated id, second copy. -/
def dupSessionA2 : StoredSession :=
  { sessionId := "A", title := "second", messages := [], createdAt := 0,
    updatedAt := 1 }

/-- Upserted session carrying the duplicated id. -/
def dupSessionA3 : StoredSession :=
  { sessionId := "A", title := "third", messages := [], createdAt := 0,
    updatedAt := 2 }

/-- C3 counterexample: with a duplicate `sessionId` in the input (the claim
states no uniqueness precondition), `upsert` replaces only the first match,
so the sorted result carries two entries for the id "A", not exactly one. -/
theorem upsert_sort_counterexample :
    (sortSessionsByUpdated (upsertSession [dupSessionA1, dupSessionA2]
      dupSessionA3)).countP (fun s => s.sessionId == "A") = 2 := by decide

/-- C3 (amended): when the input `sessionId`s are pairwise distinct (the
Session Store invariant), `upsert` followed by `sortByRecency` yields
exactly one entry per distinct `sessionId` — the input ids plus the
upserted id — ordered by `updatedAt` descending, stably (ties keep the
order of the upserted sequence, of which the output is a permutation). -/
theorem upsert_sort_spec (sessions : List StoredSession)
    (session : StoredSession)
    (h : (sessions.map StoredSession.sessionId).Nodup) :
    ((sortSessionsByUpdated (upsertSession sessions session)).map
        StoredSession.sessionId).Nodup ∧
    (∀ i : String,
      i ∈ (sortSessionsByUpdated (upsertSession sessions session)).map
        StoredSession.sessionId ↔
      i ∈ sessions.map StoredSession.sessionId ∨ i = session.sessionId) ∧
    (sortSessionsByUpdated (upsertSession sessions session)).Pairwise
      (fun a b => b.updatedAt ≤ a.updatedAt) ∧
    (∀ k : Int,
      (sortSessionsByUpdated (upsertSession sessions session)).filter
          (fun s => s.updatedAt == k) =
        (upsertSession sessions session).filter
          (fun s => s.updatedAt == k)) ∧
    (sortSessionsByUpdated (upsertSession sessions session)).Perm
      (upsertSession sessions session) := by
  have hperm : (sortSessionsByUpdated (upsertSession sessions session)).Perm
      (upsertSession sessions session) := by
    have := foldl_insertByUpdated_perm (upsertSession sessions session) []
    simpa [sortSessionsByUpdated] using this
  have hupids := upsertSession_map_sessionId sessions session
  refine ⟨?_, ?_, ?_, ?_, hperm⟩
  · refine (hperm.map StoredSession.sessionId).nodup_iff.mpr ?_
    rw [hupids]
    by_cases hmem : session.sessionId ∈ sessions.map StoredSession.sessionId
    · simpa [hmem] using h
    · rw [if_neg hmem]
      simp [List.nodup_append, h, hmem]
  · intro i
    rw [(hperm.map StoredSession.sessionId).mem_iff, hupids]
    by_cases hmem : session.sessionId ∈ sessions.map StoredSession.sessionId
    · rw [if_pos hmem]
      constructor
      · exact fun hi => Or.inl hi
      · rintro (hi | rfl)
        · exact hi
        · exact hmem
    · rw [if_neg hmem]
      simp
  · have := foldl_insertByUpdated_sorted (upsertSession sessions session) []
      List.Pairwise.nil
    simpa [sortSessionsByUpdated] using this
  · intro k
    have := foldl_insertByUpdated_filter k (upsertSession sessions session) []
      List.Pairwise.nil
    simpa [sortSessionsByUpdated] using this

/-- Distinct-id session used by the C3 witness. -/
def recencySessionA : StoredSession :=
  { sessionId := "A", title := "a", messages := [], createdAt := 0,
    updatedAt := 5 }

/-- Distinct-id session used by the C3 witness. -/
def recencySessionB : StoredSession :=
  { sessionId := "B", title := "b", messages := [], createdAt := 0,
    updatedAt := 7 }

/-- Session upserted by the C3 witness. -/
def recencySessionC : StoredSession :=
  { sessionId := "C", title := "c", messages := [], createdAt := 0,
    updatedAt := 6 }

/-- Witness for C3 at a concrete distinct-id input. -/
theorem upsert_sort_spec_witness :
    ((sortSessionsByUpdated (upsertSession [recencySessionA, recencySessionB]
        recencySessionC)).map StoredSession.sessionId).Nodup ∧
    (sortSessionsByUpdated (upsertSession [recencySessionA, recencySessionB]
        recencySessionC)).Pairwise (fun a b => b.updatedAt ≤ a.updatedAt) :=
  ⟨(upsert_sort_spec [recencySessionA, recencySessionB] recencySessionC
      (by decide)).1,
   (upsert_sort_spec [recencySessionA, recencySessionB] recencySessionC
      (by decide)).2.2.1⟩

/-! ## Claim C4: bucketing is a partition -/

/-- Pushing into the monthly record adds exactly the pushed session to the
flattened contents. -/
theorem insertMonthly_flatten (m : List (String × List StoredSession))
    (key : String) (s : StoredSession) :
    (((insertMonthly m key s).map Prod.snd).flatten).Perm
      (s :: (m.map Prod.snd).flatten) := by
  induction m with
  | nil => simp [insertMonthly]
  | cons kg rest ih =>
    obtain ⟨k, g⟩ := kg
    unfold insertMonthly
    split
    · simp only [List.map_cons, List.flatten_cons, List.append_assoc]
      exact List.perm_middle
    · simp only [List.map_cons, List.flatten_cons]
      exact (ih.append_left g).trans List.perm_middle

/-- One bucketing step adds exactly the processed session to the flattened
bucket contents. -/
theorem addSessionToBuckets_flatten (tz now : Int)
    (b : SessionHistoryBuckets) (s : StoredSession) :
    (flattenBuckets (addSessionToBuckets tz now b s)).Perm
      (s :: flattenBuckets b) := by
  unfold addSessionToBuckets
  split_ifs with h1 h2 h3
  · have ha : flattenBuckets { b with today := b.today ++ [s] } =
        b.today ++ s :: (b.yesterday ++ (b.last7Days ++
          (b.monthly.map Prod.snd).flatten)) := by
      simp [flattenBuckets]
    have hb : s :: flattenBuckets b =
        s :: (b.today ++ (b.yesterday ++ (b.last7Days ++
          (b.monthly.map Prod.snd).flatten))) := by
      simp [flattenBuckets]
    rw [ha, hb]
    exact List.perm_middle
  · have ha : flattenBuckets { b with yesterday := b.yesterday ++ [s] } =
        (b.today ++ b.yesterday) ++ s :: (b.last7Days ++
          (b.monthly.map Prod.snd).flatten) := by
      simp [flattenBuckets]
    have hb : s :: flattenBuckets b =
        s :: ((b.today ++ b.yesterday) ++ (b.last7Days ++
          (b.monthly.map Prod.snd).flatten)) := by
      simp [flattenBuckets, List.append_assoc]
    rw [ha, hb]
    exact List.perm_middle
  · have ha : flattenBuckets { b with last7Days := b.last7Days ++ [s] } =
        (b.today ++ (b.yesterday ++ b.last7Days)) ++ s ::
          (b.monthly.map Prod.snd).flatten := by
      simp [flattenBuckets]
    have hb : s :: flattenBuckets b =
        s :: ((b.today ++ (b.yesterday ++ b.last7Days)) ++
          (b.monthly.map Prod.snd).flatten) := by
      simp [flattenBuckets, List.append_assoc]
    rw [ha, hb]
    exact List.perm_middle
  · have hm := insertMonthly_flatten b.monthly
      (formatDateKey tz s.updatedAt) s
    have hstep : List.Perm
        (flattenBuckets { b with
          monthly := insertMonthly b.monthly (formatDateKey tz s.updatedAt) s })
        (b.today ++ (b.yesterday ++ (b.last7Days ++
          (s :: (b.monthly.map Prod.snd).flatten)))) := by
      unfold flattenBuckets
      simpa using ((hm.append_left b.last7Days).append_left
        b.yesterday).append_left b.today
    refine hstep.trans ?_
    have ha : b.today ++ (b.yesterday ++ (b.last7Days ++
        (s :: (b.monthly.map Prod.snd).flatten))) =
        (b.today ++ (b.yesterday ++ b.last7Days)) ++ s ::
          (b.monthly.map Prod.snd).flatten := by
      simp [List.append_assoc]
    have hb : s :: flattenBuckets b =
        s :: ((b.today ++ (b.yesterday ++ b.last7Days)) ++
          (b.monthly.map Prod.snd).flatten) := by
      simp [flattenBuckets, List.append_assoc]
    rw [ha, hb]
    exact List.perm_middle

/-- Multiset preservation of the bucketing fold. -/
theorem foldl_addSessionToBuckets_perm (tz now : Int)
    (l : List StoredSession) :
    ∀ acc : SessionHistoryBuckets,
      (flattenBuckets (l.foldl (addSessionToBuckets tz now) acc)).Perm
        (flattenBuckets acc ++ l) := by
  induction l with
  | nil => intro acc; simp
  | cons x xs ih =>
    intro acc
    refine (ih (addSessionToBuckets tz now acc x)).trans ?_
    refine ((addSessionToBuckets_flatten tz now acc x).append_right xs).trans ?_
    exact List.perm_middle.symm

/-- The bucket assignment rules, first match winning: members of `today`
share the calendar day of "now"; `yesterday` holds the preceding calendar
day; `last7Days` holds sessions within seven days that matched neither;
`monthly` holds everything older, keyed by the `"YYYY-MM"` of the session. -/
def BucketRuleInv (tz now : Int) (b : SessionHistoryBuckets) : Prop :=
  (∀ s ∈ b.today, isSameDay tz s.updatedAt now = true) ∧
  (∀ s ∈ b.yesterday, isSameDay tz s.updatedAt now = false ∧
    isSameDay tz s.updatedAt (now - dayMs) = true) ∧
  (∀ s ∈ b.last7Days, isSameDay tz s.updatedAt now = false ∧
    isSameDay tz s.updatedAt (now - dayMs) = false ∧
    now - 7 * dayMs ≤ s.updatedAt) ∧
  (∀ kg ∈ b.monthly, ∀ s ∈ kg.2, isSameDay tz s.updatedAt now = false ∧
    isSameDay tz s.updatedAt (now - dayMs) = false ∧
    ¬(now - 7 * dayMs ≤ s.updatedAt) ∧ kg.1 = formatDateKey tz s.updatedAt)

/-- A per-entry property of the monthly record survives a push when the
pushed session satisfies it at the pushed key. -/
theorem insertMonthly_forall {P : String → StoredSession → Prop}
    {m : List (String × List StoredSession)} {key : String} {s : StoredSession}
    (hm : ∀ kg ∈ m, ∀ x ∈ kg.2, P kg.1 x) (hs : P key s) :
    ∀ kg ∈ insertMonthly m key s, ∀ x ∈ kg.2, P kg.1 x := by
  induction m with
  | nil =>
    intro kg hkg x hx
    have hkg' : kg = (key, [s]) := by simpa [insertMonthly] using hkg
    subst hkg'
    have hx' : x = s := by simpa using hx
    subst hx'
    exact hs
  | cons hd rest ih =>
    obtain ⟨k, g⟩ := hd
    intro kg hkg x hx
    unfold insertMonthly at hkg
    split at hkg
    · rename_i hk
      rcases List.mem_cons.mp hkg with rfl | htl
      · rcases List.mem_append.mp hx with hxg | hxs
        · exact hm (k, g) (List.mem_cons_self _ _) x hxg
        · have hx' : x = s := by simpa using hxs
          subst hx'
          exact hk ▸ hs
      · exact hm kg (List.mem_cons_of_mem _ htl) x hx
    · rcases List.mem_cons.mp hkg with rfl | htl
      · exact hm (k, g) (List.mem_cons_self _ _) x hx
      · exact ih (fun kg2 h2 => hm kg2 (List.mem_cons_of_mem _ h2)) kg htl x hx

/-- One bucketing step preserves the assignment rules. -/
theorem addSessionToBuckets_inv {tz now : Int} {b : SessionHistoryBuckets}
    (hinv : BucketRuleInv tz now b) (s : StoredSession) :
    BucketRuleInv tz now (addSessionToBuckets tz now b s) := by
  obtain ⟨ht, hy, hl, hmth⟩ := hinv
  unfold addSessionToBuckets
  split_ifs with h1 h2 h3
  · refine ⟨?_, hy, hl, hmth⟩
    intro x hx
    rcases List.mem_append.mp hx with hxg | hxs
    · exact ht x hxg
    · have hx' : x = s := by simpa using hxs
      subst hx'
      exact h1
  · refine ⟨ht, ?_, hl, hmth⟩
    intro x hx
    rcases List.mem_append.mp hx with hxg | hxs
    · exact hy x hxg
    · have hx' : x = s := by simpa using hxs
      subst hx'
      exact ⟨by simpa using h1, h2⟩
  · refine ⟨ht, hy, ?_, hmth⟩
    intro x hx
    rcases List.mem_append.mp hx with hxg | hxs
    · exact hl x hxg
    · have hx' : x = s := by simpa using hxs
      subst hx'
      exact ⟨by simpa using h1, by simpa using h2, h3⟩
  · refine ⟨ht, hy, hl, ?_⟩
    exact @insertMonthly_forall
      (fun key x => isSameDay tz x.updatedAt now = false ∧
        isSameDay tz x.updatedAt (now - dayMs) = false ∧
        ¬(now - 7 * dayMs ≤ x.updatedAt) ∧ key = formatDateKey tz x.updatedAt)
      b.monthly (formatDateKey tz s.updatedAt) s hmth
      ⟨by simpa using h1, by simpa using h2, h3, rfl⟩

/-- The bucketing fold preserves the assignment rules. -/
theorem foldl_addSessionToBuckets_inv (tz now : Int)
    (l : List StoredSession) :
    ∀ acc : SessionHistoryBuckets, BucketRuleInv tz now acc →
      BucketRuleInv tz now (l.foldl (addSessionToBuckets tz now) acc) := by
  induction l with
  | nil => intro acc h; exact h
  | cons x xs ih =>
    intro acc h
    exact ih _ (addSessionToBuckets_inv h x)

/-- C4: bucketing is a partition: every input session lands in exactly one
bucket — the flattened buckets are a permutation of the input, for every
reference "now" and any `updatedAt` values including ties at day
boundaries — and each bucket's members satisfy its first-match rule. -/
theorem bucketSessions_partition (tz now : Int)
    (sessions : List StoredSession) :
    (flattenBuckets (bucketSessions tz now sessions)).Perm sessions ∧
    BucketRuleInv tz now (bucketSessions tz now sessions) := by
  constructor
  · have := foldl_addSessionToBuckets_perm tz now sessions emptyBuckets
    simpa [bucketSessions, flattenBuckets, emptyBuckets] using this
  · refine foldl_addSessionToBuckets_inv tz now sessions emptyBuckets ?_
    simp [BucketRuleInv, emptyBuckets]

/-- A session updated moments before the reference instant (C4 witness). -/
def sessionTodayW : StoredSession :=
  { sessionId := "t", title := "today", messages := [], createdAt := 0,
    updatedAt := 1699999999000 }

/-- A session updated forty days before the reference instant (C4 witness). -/
def sessionOldW : StoredSession :=
  { sessionId := "o", title := "old", messages := [], createdAt := 0,
    updatedAt := 1700000000000 - 40 * 86400000 }

/-- Witness for C4 at a concrete clock and session list. -/
theorem bucketSessions_partition_witness :
    (flattenBuckets (bucketSessions 0 1700000000000
      [sessionTodayW, sessionOldW])).Perm [sessionTodayW, sessionOldW] ∧
    isSameDay 0 sessionTodayW.updatedAt 1700000000000 = true :=
  ⟨(bucketSessions_partition 0 1700000000000 [sessionTodayW, sessionOldW]).1,
   (bucketSessions_partition 0 1700000000000 [sessionTodayW, sessionOldW]).2.1
     sessionTodayW
     (by rw [show (bucketSessions 0 1700000000000
         [sessionTodayW, sessionOldW]).today = [sessionTodayW] from rfl]
         exact List.mem_singleton_self _)⟩

/-! ## Claims C1, C2, C5: the submission handler -/

/-- A fresh uuid differs from its derived loading id. -/
theorem uuid_ne_loading_id (uuid : String) : uuid ≠ uuid ++ "-loading" := by
  intro hcontra
  have hlen := congrArg String.length hcontra
  rw [String.length_append] at hlen
  have h8 : ("-loading" : String).length = 8 := rfl
  omega

/-- The optimistic persistence step is the identity when no stored session
matches the current conversation. -/
theorem optimisticPersist_no_match {sessionId : Option String}
    {prev : List StoredSession} {slot : Slot} {stored : StoredMessage}
    (h : ∀ sid, sessionId = some sid → ∀ s ∈ prev, s.sessionId ≠ sid) :
    optimisticPersist sessionId prev slot stored = (prev, slot) := by
  cases sessionId with
  | none => rfl
  | some sid =>
    have hfind : prev.find? (fun session => session.sessionId = sid) = none := by
      rw [List.find?_eq_none]
      intro s hs
      simpa using h sid rfl s hs
    simp [optimisticPersist, hfind]

/-- Unfolding of the submission handler with no agent configured. -/
theorem handleSubmit_none_eq (uuid : String) (now now2 : Int)
    (outcome : NetOutcome) (st : ChatState) (h : jsTrim st.input ≠ "") :
    handleSubmit none uuid now now2 outcome st =
      ({ st with
          messages := st.messages ++ [mkUserMessage uuid (jsTrim st.input),
            mkLoadingMessage uuid (getLoadingMessage (jsTrim st.input)),
            mkMissingAgentMessage uuid],
          input := "",
          storedSessions := (optimisticPersist st.sessionId st.storedSessions
            st.slot (mkStoredUserMessage uuid (jsTrim st.input) now)).1,
          slot := (optimisticPersist st.sessionId st.storedSessions st.slot
            (mkStoredUserMessage uuid (jsTrim st.input) now)).2 }, false) := by
  unfold handleSubmit
  rw [if_neg h]
  simp [mkUserMessage, List.append_assoc]

/-- Stored session already holding one message, for the C1 counterexample. -/
def cexSessionC1 : StoredSession :=
  { sessionId := "s1", title := "t",
    messages := [{ id := "m0", role := .user, content := "hi",
                   createdAt := 0 }],
    createdAt := 0, updatedAt := 0 }

/-- Controller state whose store already contains a session for the current
conversation, for the C1 counterexample. -/
def cexStateC1 : ChatState :=
  { messages := [], input := "hello", sessionId := some "s1",
    storedSessions := [cexSessionC1], slot := .absent }

/-- C1 counterexample: submitting with no agent configured while the store
holds a session for the current conversation mutates the Session Store (the
optimistic persistence step runs before the agent check and appends the
user message to the stored session). -/
theorem submit_without_agent_counterexample :
    (handleSubmit none "u1" 5 6 NetOutcome.failure
        cexStateC1).1.storedSessions ≠ cexStateC1.storedSessions := by
  intro hcontra
  have h1 : ((handleSubmit none "u1" 5 6 NetOutcome.failure
      cexStateC1).1.storedSessions).map (fun s => s.messages.length) = [2] :=
    rfl
  rw [hcontra] at h1
  exact absurd h1 (by decide)

/-- C1 (amended): submitting with no agent configured appends exactly one
system-role message (after the optimistic user message and the loading
placeholder, which is not removed) and issues no network call; the Session
Store and the persisted slot are unchanged whenever no stored session
matches the current conversation — but when one matches, it gains the
optimistically persisted user message, as on any submit. -/
theorem submit_without_agent (uuid : String) (now now2 : Int)
    (outcome : NetOutcome) (st : ChatState) (h : jsTrim st.input ≠ "") :
    (handleSubmit none uuid now now2 outcome st).2 = false ∧
    (handleSubmit none uuid now now2 outcome st).1.messages =
      st.messages ++ [mkUserMessage uuid (jsTrim st.input),
        mkLoadingMessage uuid (getLoadingMessage (jsTrim st.input)),
        mkMissingAgentMessage uuid] ∧
    (handleSubmit none uuid now now2 outcome st).1.messages.countP
        (fun m => m.role == Role.system) =
      st.messages.countP (fun m => m.role == Role.system) + 1 ∧
    (handleSubmit none uuid now now2 outcome st).1.storedSessions =
      (optimisticPersist st.sessionId st.storedSessions st.slot
        (mkStoredUserMessage uuid (jsTrim st.input) now)).1 ∧
    ((∀ sid, st.sessionId = some sid →
        ∀ s ∈ st.storedSessions, s.sessionId ≠ sid) →
      (handleSubmit none uuid now now2 outcome st).1.storedSessions =
        st.storedSessions ∧
      (handleSubmit none uuid now now2 outcome st).1.slot = st.slot) := by
  rw [handleSubmit_none_eq uuid now now2 outcome st h]
  refine ⟨rfl, rfl, ?_, rfl, ?_⟩
  · simp [List.countP_append, List.countP_cons, mkUserMessage,
      mkLoadingMessage, mkMissingAgentMessage]
  · intro hnone
    rw [optimisticPersist_no_match hnone]
    exact ⟨rfl, rfl⟩

/-- Controller state with no active session, for the C1 witness. -/
def freshStateC1 : ChatState :=
  { messages := [], input := "hello", sessionId := none,
    storedSessions := [], slot := .absent }

/-- Witness for C1 at a concrete agentless submission with empty store. -/
theorem submit_without_agent_witness :
    (handleSubmit none "u1" 5 6 NetOutcome.failure freshStateC1).2 = false ∧
    (handleSubmit none "u1" 5 6 NetOutcome.failure
      freshStateC1).1.storedSessions = freshStateC1.storedSessions :=
  ⟨(submit_without_agent "u1" 5 6 NetOutcome.failure freshStateC1
      (by decide)).1,
   ((submit_without_agent "u1" 5 6 NetOutcome.failure freshStateC1
      (by decide)).2.2.2.2 (by intro sid hsid s hs; cases hsid)).1⟩

/-- Unfolding of the submission handler when the remote call fails. -/
theorem handleSubmit_failure_eq (agent : Agent) (uuid : String)
    (now now2 : Int) (st : ChatState) (h : jsTrim st.input ≠ "") :
    handleSubmit (some agent) uuid now now2 .failure st =
      ({ st with
          messages := ((st.messages ++ [mkUserMessage uuid (jsTrim st.input),
            mkLoadingMessage uuid (getLoadingMessage (jsTrim st.input))]).filter
              (fun m => m.id ≠ uuid ++ "-loading")) ++ [mkErrorMessage uuid],
          input := "",
          storedSessions := (optimisticPersist st.sessionId st.storedSessions
            st.slot (mkStoredUserMessage uuid (jsTrim st.input) now)).1,
          slot := (optimisticPersist st.sessionId st.storedSessions st.slot
            (mkStoredUserMessage uuid (jsTrim st.input) now)).2 }, true) := by
  unfold handleSubmit
  rw [if_neg h]
  simp [mkUserMessage, List.append_assoc]

/-- C5: when the remote call of a submitted turn fails, the loading
placeholder is removed and replaced by exactly one system-role error
message, and the Session Store and slot undergo no mutation beyond the
optimistic persistence step performed before the call was issued. -/
theorem submit_failure_spec (agent : Agent) (uuid : String) (now now2 : Int)
    (st : ChatState) (h : jsTrim st.input ≠ "")
    (hfresh : ∀ m ∈ st.messages, m.id ≠ uuid ++ "-loading") :
    (handleSubmit (some agent) uuid now now2 .failure st).1.messages =
      st.messages ++ [mkUserMessage uuid (jsTrim st.input),
        mkErrorMessage uuid] ∧
    (handleSubmit (some agent) uuid now now2 .failure st).1.messages.countP
        (fun m => m.role == Role.system) =
      st.messages.countP (fun m => m.role == Role.system) + 1 ∧
    (handleSubmit (some agent) uuid now now2 .failure st).1.storedSessions =
      (optimisticPersist st.sessionId st.storedSessions st.slot
        (mkStoredUserMessage uuid (jsTrim st.input) now)).1 ∧
    (handleSubmit (some agent) uuid now now2 .failure st).1.slot =
      (optimisticPersist st.sessionId st.storedSessions st.slot
        (mkStoredUserMessage uuid (jsTrim st.input) now)).2 ∧
    (handleSubmit (some agent) uuid now now2 .failure st).2 = true := by
  rw [handleSubmit_failure_eq agent uuid now now2 st h]
  have hfilter : (st.messages ++ [mkUserMessage uuid (jsTrim st.input),
      mkLoadingMessage uuid (getLoadingMessage (jsTrim st.input))]).filter
        (fun m => m.id ≠ uuid ++ "-loading") =
      st.messages ++ [mkUserMessage uuid (jsTrim st.input)] := by
    rw [List.filter_append]
    congr 1
    · exact List.filter_eq_self.mpr (fun m hm => by simpa using hfresh m hm)
    · simp [List.filter_cons, mkUserMessage, mkLoadingMessage,
        uuid_ne_loading_id uuid]
  refine ⟨?_, ?_, rfl, rfl, rfl⟩
  · show (_ ++ [mkErrorMessage uuid]) = _
    rw [hfilter, List.append_assoc]
    rfl
  · show List.countP _ (_ ++ [mkErrorMessage uuid]) = _
    rw [hfilter]
    simp [List.countP_append, List.countP_cons, mkUserMessage, mkErrorMessage]

/-- Controller state used by the C5 witness. -/
def failStateC5 : ChatState :=
  { messages := [], input := "hi", sessionId := none,
    storedSessions := [], slot := .absent }

/-- Witness for C5 at a concrete failing submission. -/
theorem submit_failure_spec_witness :
    (handleSubmit (some ⟨"http://agent.example"⟩) "u2" 0 0 NetOutcome.failure
      failStateC5).1.messages =
      failStateC5.messages ++ [mkUserMessage "u2" (jsTrim failStateC5.input),
        mkErrorMessage "u2"] ∧
    (handleSubmit (some ⟨"http://agent.example"⟩) "u2" 0 0 NetOutcome.failure
      failStateC5).2 = true :=
  ⟨(submit_failure_spec ⟨"http://agent.example"⟩ "u2" 0 0 failStateC5
      (by decide) (by intro m hm; simp [failStateC5] at hm)).1,
   (submit_failure_spec ⟨"http://agent.example"⟩ "u2" 0 0 failStateC5
      (by decide) (by intro m hm; simp [failStateC5] at hm)).2.2.2.2⟩

/-! ## Claim C2: message-id uniqueness within a stored session -/

/-- Stored session already holding one message, for the C2 failing input. -/
def bugSessionC2 : StoredSession :=
  { sessionId := "s1", title := "t",
    messages := [{ id := "m0", role := .user, content := "hi",
                   createdAt := 0 }],
    createdAt := 0, updatedAt := 0 }

/-- Controller state submitting on an existing session, for the C2 failing
input. -/
def bugStateC2 : ChatState :=
  { messages := [], input := "hello again", sessionId := some "s1",
    storedSessions := [bugSessionC2], slot := .absent }

/-- Successful response carrying the same session id and no new messages,
for the C2 failing input. -/
def bugPayloadC2 : RunAgentResponsePayload :=
  { newMessages := [], sessionId := some "s1" }

/-- C2 failing input: a submission on an existing stored session whose
remote call succeeds with the same session id.  The optimistic persistence
step appends the user message (guarded against duplication), but the
success merge appends it again unconditionally, so the stored session ends
with two messages carrying the submission's id — the claimed uniqueness
fails on the code. -/
theorem duplicate_user_message_id :
    ((handleSubmit (some ⟨"http://agent.example"⟩) "u1" 5 9
        (.success bugPayloadC2) bugStateC2).1.storedSessions.map
      (fun s => (s.messages.map (fun m => m.id), s.sessionId))) =
      [(["m0", "u1", "u1"], "s1")] := rfl
